import Mathlib

/-!
Verification of the GerberView web host against its natural-language
specification.  The definitions below are a shallow embedding of the
TypeScript sources under `apps/web/src` (file classification, ZIP
extraction, worker transport, coordinate transforms) together with
spec-modelled definitions for the Rust/wasm geometry core, whose source
is not part of this repository checkout (only its TypeScript callers
are).  Bytes are modelled as natural numbers (a `Uint8Array` element is
always `< 256`), JavaScript numbers as rationals tagged with a
finiteness flag where `Number.isFinite` matters, and JavaScript strings
as Lean strings.
-/

namespace GerberView

/-- `fileType` tag of an identified file: the string union
`"gerber" | "excellon" | "unknown"` from `types.ts`. -/
inductive FileType where
  | gerber
  | excellon
  | unknown
  deriving DecidableEq, Repr

/-- `LayerType` const-enum object from `types.ts`. -/
inductive LayerType where
  | TopCopper
  | BottomCopper
  | TopSolderMask
  | BottomSolderMask
  | TopSilkscreen
  | BottomSilkscreen
  | TopPaste
  | BottomPaste
  | BoardOutline
  | Drill
  | InnerCopper
  | Unknown
  deriving DecidableEq, Repr

/-- `ErrorCode` const-enum object from `types.ts` (the subset raised by
`zip-handler.ts`). -/
inductive ErrorCode where
  | InvalidFileType
  | EmptyZip
  | NoGerberFiles
  | ZipTooLarge
  deriving DecidableEq, Repr

/-- Result of `identifyLayer` (`LayerIdentification` =
`Omit<IdentifiedFile, "content">` in `layer-identify.ts`). -/
structure LayerIdentification where
  fileName : String
  layerType : LayerType
  fileType : FileType
  deriving DecidableEq, Repr

/-- An entry of the pattern tables in `layer-identify.ts`. -/
structure PatternEntry where
  layerType : LayerType
  fileType : FileType
  deriving DecidableEq, Repr

/-- `String.prototype.endsWith`, computed on the character lists (the
strings involved are ASCII, so characters and UTF-16 code units
coincide). -/
def strEndsWith (s suffix : String) : Bool :=
  suffix.data.isSuffixOf s.data

/-- `String.prototype.startsWith`, computed on the character lists. -/
def strStartsWith (s pre : String) : Bool :=
  pre.data.isPrefixOf s.data

/-- `String.prototype.lastIndexOf` for a single character: index of the
last occurrence, `-1` when absent. -/
def lastIndexOfChar (s : String) (c : Char) : Int :=
  match s.data.reverse.findIdx? (fun d => d = c) with
  | some j => (s.data.length : Int) - 1 - (j : Int)
  | none => -1

/-- `extractBaseName` from `layer-identify.ts` (also duplicated in
`zip-handler.ts`): the part of the path after the last `/` or `\`. -/
def extractBaseName (filePath : String) : String :=
  let lastSlash := max (lastIndexOfChar filePath '/') (lastIndexOfChar filePath '\\')
  if 0 ≤ lastSlash then ⟨filePath.data.drop (lastSlash.toNat + 1)⟩ else filePath

/-- `extractExtension` from `layer-identify.ts`: the suffix from the last
dot on (dot included), `""` when there is no dot. -/
def extractExtension (baseName : String) : String :=
  let dotIndex := lastIndexOfChar baseName '.'
  if 0 ≤ dotIndex then ⟨baseName.data.drop dotIndex.toNat⟩ else ""

/-- `String.prototype.toLowerCase` restricted to the ASCII range used by
the pattern tables. -/
def strToLower (s : String) : String :=
  ⟨s.data.map Char.toLower⟩

/-- `KICAD_SUFFIX_PATTERNS` from `layer-identify.ts`, in insertion
order. -/
def kicadSuffixPatterns : List (String × PatternEntry) :=
  [ ("-f_cu.gbr", ⟨LayerType.TopCopper, FileType.gerber⟩),
    ("-b_cu.gbr", ⟨LayerType.BottomCopper, FileType.gerber⟩),
    ("-f_mask.gbr", ⟨LayerType.TopSolderMask, FileType.gerber⟩),
    ("-b_mask.gbr", ⟨LayerType.BottomSolderMask, FileType.gerber⟩),
    ("-f_silks.gbr", ⟨LayerType.TopSilkscreen, FileType.gerber⟩),
    ("-b_silks.gbr", ⟨LayerType.BottomSilkscreen, FileType.gerber⟩),
    ("-edge_cuts.gbr", ⟨LayerType.BoardOutline, FileType.gerber⟩),
    ("-f_paste.gbr", ⟨LayerType.TopPaste, FileType.gerber⟩),
    ("-b_paste.gbr", ⟨LayerType.BottomPaste, FileType.gerber⟩) ]

/-- `EASYEDA_PREFIX_PATTERNS` from `layer-identify.ts`, in insertion
order. -/
def easyedaPatterns : List (String × PatternEntry) :=
  [ ("gerber_toplayer", ⟨LayerType.TopCopper, FileType.gerber⟩),
    ("gerber_bottomlayer", ⟨LayerType.BottomCopper, FileType.gerber⟩),
    ("gerber_topsoldermask", ⟨LayerType.TopSolderMask, FileType.gerber⟩),
    ("gerber_bottomsoldermask", ⟨LayerType.BottomSolderMask, FileType.gerber⟩),
    ("gerber_topsilkscreen", ⟨LayerType.TopSilkscreen, FileType.gerber⟩),
    ("gerber_bottomsilkscreen", ⟨LayerType.BottomSilkscreen, FileType.gerber⟩),
    ("gerber_boardoutline", ⟨LayerType.BoardOutline, FileType.gerber⟩),
    ("gerber_toppaste", ⟨LayerType.TopPaste, FileType.gerber⟩),
    ("gerber_bottompaste", ⟨LayerType.BottomPaste, FileType.gerber⟩) ]

/-- `EXTENSION_PATTERNS` from `layer-identify.ts`, in insertion order. -/
def extensionPatterns : List (String × PatternEntry) :=
  [ (".gtl", ⟨LayerType.TopCopper, FileType.gerber⟩),
    (".gbl", ⟨LayerType.BottomCopper, FileType.gerber⟩),
    (".gts", ⟨LayerType.TopSolderMask, FileType.gerber⟩),
    (".gbs", ⟨LayerType.BottomSolderMask, FileType.gerber⟩),
    (".gto", ⟨LayerType.TopSilkscreen, FileType.gerber⟩),
    (".gbo", ⟨LayerType.BottomSilkscreen, FileType.gerber⟩),
    (".gtp", ⟨LayerType.TopPaste, FileType.gerber⟩),
    (".gbp", ⟨LayerType.BottomPaste, FileType.gerber⟩),
    (".gko", ⟨LayerType.BoardOutline, FileType.gerber⟩),
    (".gm1", ⟨LayerType.BoardOutline, FileType.gerber⟩),
    (".cmp", ⟨LayerType.TopCopper, FileType.gerber⟩),
    (".top", ⟨LayerType.TopCopper, FileType.gerber⟩),
    (".sol", ⟨LayerType.BottomCopper, FileType.gerber⟩),
    (".bot", ⟨LayerType.BottomCopper, FileType.gerber⟩),
    (".stc", ⟨LayerType.TopSolderMask, FileType.gerber⟩),
    (".tsp", ⟨LayerType.TopSolderMask, FileType.gerber⟩),
    (".sts", ⟨LayerType.BottomSolderMask, FileType.gerber⟩),
    (".bsp", ⟨LayerType.BottomSolderMask, FileType.gerber⟩),
    (".plc", ⟨LayerType.TopSilkscreen, FileType.gerber⟩),
    (".tsk", ⟨LayerType.TopSilkscreen, FileType.gerber⟩),
    (".pls", ⟨LayerType.BottomSilkscreen, FileType.gerber⟩),
    (".bsk", ⟨LayerType.BottomSilkscreen, FileType.gerber⟩),
    (".bor", ⟨LayerType.BoardOutline, FileType.gerber⟩),
    (".dim", ⟨LayerType.BoardOutline, FileType.gerber⟩),
    (".drl", ⟨LayerType.Drill, FileType.excellon⟩),
    (".xln", ⟨LayerType.Drill, FileType.excellon⟩),
    (".drd", ⟨LayerType.Drill, FileType.excellon⟩),
    (".gbr", ⟨LayerType.Unknown, FileType.gerber⟩),
    (".ger", ⟨LayerType.Unknown, FileType.gerber⟩),
    (".pho", ⟨LayerType.Unknown, FileType.gerber⟩) ]

/-- `identifyLayer` from `layer-identify.ts`: KiCad suffix patterns
first, then EasyEDA prefixes on the name without extension, then
extension lookup, then the unknown fallback. -/
def identifyLayer (fileName : String) : LayerIdentification :=
  let baseName := extractBaseName fileName
  let lower := strToLower baseName
  match kicadSuffixPatterns.find? (fun p => strEndsWith lower p.1) with
  | some (_, entry) => ⟨baseName, entry.layerType, entry.fileType⟩
  | none =>
    let extStart := lastIndexOfChar lower '.'
    let nameWithoutExt : String :=
      if 0 ≤ extStart then ⟨lower.data.take extStart.toNat⟩ else lower
    match easyedaPatterns.find? (fun p => strStartsWith nameWithoutExt p.1) with
    | some (_, entry) => ⟨baseName, entry.layerType, entry.fileType⟩
    | none =>
      let ext := extractExtension lower
      match (if ext ≠ "" then extensionPatterns.find? (fun p => p.1 = ext) else none) with
      | some (_, entry) => ⟨baseName, entry.layerType, entry.fileType⟩
      | none => ⟨baseName, LayerType.Unknown, FileType.unknown⟩

example : identifyLayer "proj-F_Cu.gbr" =
    ⟨"proj-F_Cu.gbr", LayerType.TopCopper, FileType.gerber⟩ := by decide

example : identifyLayer "a/b/board.GTL" = ⟨"board.GTL", LayerType.TopCopper, FileType.gerber⟩ := by
  decide

example : identifyLayer "Gerber_TopLayer.GTL" =
    ⟨"Gerber_TopLayer.GTL", LayerType.TopCopper, FileType.gerber⟩ := by decide

example : identifyLayer "holes.drl" = ⟨"holes.drl", LayerType.Drill, FileType.excellon⟩ := by
  decide

example : identifyLayer "readme.txt" = ⟨"readme.txt", LayerType.Unknown, FileType.unknown⟩ := by
  decide

/-! ## ZIP handling (`zip-handler.ts`) -/

/-- Generic substring containment (`String.prototype.includes`): does
`pat` occur contiguously inside the second list? -/
def listContainsSub [BEq α] (pat : List α) : List α → Bool
  | [] => pat.isEmpty
  | c :: rest => pat.isPrefixOf (c :: rest) || listContainsSub pat rest

/-- ASCII bytes of a string literal. -/
def bytesOfAscii (s : String) : List Nat :=
  s.data.map Char.toNat

/-- `String.prototype.includes` on Lean strings. -/
def strContainsSub (s pat : String) : Bool :=
  listContainsSub pat.data s.data

/-- `CONTENT_INSPECT_BYTES` from `zip-handler.ts`. -/
def contentInspectBytes : Nat := 100

/-- `identifyByContent` from `zip-handler.ts`.  The source builds a
JavaScript string from the first `min(byteLength, 100)` bytes with one
UTF-16 code unit per byte and calls `String.prototype.includes`; since
that byte-to-code-unit map is injective on `0..255`, containment in the
decoded string is containment in the byte window, which is what is
checked here. -/
def identifyByContent (fileName : String) (content : List Nat) :
    Option LayerIdentification :=
  let header := content.take contentInspectBytes
  if listContainsSub (bytesOfAscii "%FSLAX") header then
    some ⟨fileName, LayerType.Unknown, FileType.gerber⟩
  else if listContainsSub (bytesOfAscii "M48") header then
    some ⟨fileName, LayerType.Drill, FileType.excellon⟩
  else none

/-- An entry of the JSZip archive as observed by `extractAndIdentify`:
its path, its directory flag, its uncompressed bytes, and — when
`entry.async("uint8array")` would reject — the rejection message. -/
structure ZipEntry where
  name : String
  dir : Bool
  content : List Nat
  extractFailure : Option String
  deriving DecidableEq, Repr

/-- `IdentifiedFile` from `types.ts`. -/
structure IdentifiedFile where
  fileName : String
  layerType : LayerType
  fileType : FileType
  content : List Nat
  deriving DecidableEq, Repr

/-- `ZipValidationError` from `zip-handler.ts` (code and message; the
optional `details` string is dropped). -/
structure ZipError where
  code : ErrorCode
  message : String
  deriving DecidableEq, Repr

/-- `MAX_UNCOMPRESSED_SIZE` from `zip-handler.ts` (100 MB). -/
def MAX_UNCOMPRESSED_SIZE : Nat := 104857600

/-- `Math.round (n / m)` on non-negative operands (round half up). -/
def natRoundDiv (n m : Nat) : Nat :=
  (n + m / 2) / m

/-- The `/encrypt|password/i` regular-expression test from
`zip-handler.ts`. -/
def extractErrorMatches (msg : String) : Bool :=
  let lower := strToLower msg
  strContainsSub lower "encrypt" || strContainsSub lower "password"

instance {ε α : Type} [DecidableEq ε] [DecidableEq α] : DecidableEq (Except ε α)
  | .error e, .error f =>
    if h : e = f then isTrue (by rw [h])
    else isFalse (by intro hh; cases hh; exact h rfl)
  | .error _, .ok _ => isFalse (by intro h; cases h)
  | .ok _, .error _ => isFalse (by intro h; cases h)
  | .ok a, .ok b =>
    if h : a = b then isTrue (by rw [h])
    else isFalse (by intro hh; cases hh; exact h rfl)

/-- The body of the `for (const entry of entries)` loop in
`extractAndIdentify`: walks the non-directory entries carrying the
running uncompressed-size total and the collected results. -/
def processEntries (maxBytes : Nat) :
    List ZipEntry → Nat → List IdentifiedFile → Except ZipError (List IdentifiedFile)
  | [], _, results => .ok results
  | entry :: rest, totalSize, results =>
    let baseName := extractBaseName entry.name
    if baseName = "" || strStartsWith baseName "." then
      processEntries maxBytes rest totalSize results
    else
      match entry.extractFailure with
      | some msg =>
        if extractErrorMatches msg then
          .error ⟨ErrorCode.InvalidFileType, "Encrypted ZIP files are not supported"⟩
        else
          .error ⟨ErrorCode.InvalidFileType, "Failed to extract file: " ++ baseName⟩
      | none =>
        let totalSize := totalSize + entry.content.length
        if totalSize > maxBytes then
          .error ⟨ErrorCode.ZipTooLarge,
            "ZIP exceeds " ++ toString (natRoundDiv maxBytes (1024 * 1024)) ++
              " MB uncompressed size limit"⟩
        else
          let identification := identifyLayer baseName
          let identification :=
            if identification.fileType = FileType.unknown then
              match identifyByContent baseName entry.content with
              | some contentMatch => contentMatch
              | none => identification
            else identification
          if identification.fileType ≠ FileType.unknown then
            processEntries maxBytes rest totalSize
              (results ++ [⟨identification.fileName, identification.layerType,
                identification.fileType, entry.content⟩])
          else
            processEntries maxBytes rest totalSize results

/-- `extractAndIdentify` from `zip-handler.ts`, over the entry list of an
opened archive (`JSZip.loadAsync` failure, which throws
`InvalidFileType` before any entry is seen, is outside this model).  The
source gives `maxUncompressedBytes` the default `MAX_UNCOMPRESSED_SIZE`;
here the caller passes it explicitly. -/
def extractAndIdentify (entries : List ZipEntry) (maxUncompressedBytes : Nat) :
    Except ZipError (List IdentifiedFile) :=
  let files := entries.filter (fun e => !e.dir)
  if files.isEmpty then
    .error ⟨ErrorCode.EmptyZip, "ZIP archive contains no files"⟩
  else
    match processEntries maxUncompressedBytes files 0 [] with
    | .error e => .error e
    | .ok results =>
      if results.isEmpty then
        .error ⟨ErrorCode.NoGerberFiles, "ZIP contains no Gerber or Excellon files"⟩
      else
        .ok results

example :
    identifyByContent "x.dat" (bytesOfAscii "%FSLAX36Y36*%") =
      some ⟨"x.dat", LayerType.Unknown, FileType.gerber⟩ := by decide

example :
    identifyByContent "x.txt" (bytesOfAscii "M48\nMETRIC\n") =
      some ⟨"x.txt", LayerType.Drill, FileType.excellon⟩ := by decide

example : identifyByContent "x.txt" (bytesOfAscii "hello") = none := by decide

example :
    extractAndIdentify
        [⟨"board.GTL", false, bytesOfAscii "%FSLAX36Y36*%", none⟩] MAX_UNCOMPRESSED_SIZE =
      .ok [⟨"board.GTL", LayerType.TopCopper, FileType.gerber, bytesOfAscii "%FSLAX36Y36*%"⟩] := by
  decide

example :
    extractAndIdentify [⟨"notes.txt", false, bytesOfAscii "hello", none⟩] MAX_UNCOMPRESSED_SIZE =
      .error ⟨ErrorCode.NoGerberFiles, "ZIP contains no Gerber or Excellon files"⟩ := by
  decide

/-! ## Worker payload (`worker-client.ts`) -/

/-- `FilePayload` from `types.ts` (the `content` buffer is a copy of the
identified file's bytes, made by `toOwnedArrayBuffer`). -/
structure FilePayload where
  fileName : String
  layerType : LayerType
  fileType : FileType
  content : List Nat
  deriving DecidableEq, Repr

/-- `toWorkerPayload` from `worker-client.ts`: copies each identified
file into a transferable payload, throwing on the first file whose
`fileType` is `"unknown"`. -/
def toWorkerPayload : List IdentifiedFile → Except String (List FilePayload)
  | [] => .ok []
  | file :: rest =>
    if file.fileType = FileType.unknown then
      .error ("Unsupported file type for \"" ++ file.fileName ++ "\"")
    else
      match toWorkerPayload rest with
      | .ok payload => .ok (⟨file.fileName, file.layerType, file.fileType, file.content⟩ :: payload)
      | .error e => .error e

/-! ## Parse worker (`parse-worker.ts`) -/

/-- A JavaScript value as observed by the `toLayerMeta` validators.  A
number carries a finiteness flag (`false` models `NaN` and `±Infinity`,
which `Number.isFinite` rejects); every finite JavaScript double is a
rational. -/
inductive JsVal where
  | vNull
  | vUndefined
  | vBool (b : Bool)
  | vNum (finite : Bool) (val : Rat)
  | vStr (s : String)
  | vArr (elems : List JsVal)
  | vObj (fields : List (String × JsVal))

/-- `isObject` from `parse-worker.ts`:
`typeof value === "object" && value !== null`.  In JavaScript an array
is an object too; `null` is excluded explicitly. -/
def isObjectB : JsVal → Bool
  | .vObj _ => true
  | .vArr _ => true
  | _ => false

/-- Property access `source[key]`: the field's value on an object (keys
assumed unique), `undefined` otherwise. -/
def jsGet (v : JsVal) (key : String) : JsVal :=
  match v with
  | .vObj fields =>
    match fields.find? (fun f => f.1 = key) with
    | some f => f.2
    | none => .vUndefined
  | _ => .vUndefined

/-- `readObject` from `parse-worker.ts`. -/
def readObject (source : JsVal) (key fileName : String) : Except String JsVal :=
  let value := jsGet source key
  if isObjectB value then .ok value
  else .error ("Invalid " ++ key ++ " in parse result for \"" ++ fileName ++ "\"")

/-- `readNumber` from `parse-worker.ts`:
`typeof value === "number" && Number.isFinite(value)`. -/
def readNumber (source : JsVal) (key fileName : String) : Except String Rat :=
  match jsGet source key with
  | .vNum true q => .ok q
  | _ => .error ("Invalid " ++ key ++ " in parse result for \"" ++ fileName ++ "\"")

/-- The `typeof item === "string"` filter of `readWarnings`. -/
def pickStr : JsVal → Option String
  | .vStr s => some s
  | _ => none

/-- `readWarnings` from `parse-worker.ts`: the value must be an array,
and filtering it down to its string elements must not drop anything. -/
def readWarnings (source : JsVal) (key fileName : String) : Except String (List String) :=
  match jsGet source key with
  | .vArr items =>
    let warnings := items.filterMap pickStr
    if warnings.length = items.length then .ok warnings
    else .error ("Invalid " ++ key ++ " in parse result for \"" ++ fileName ++ "\"")
  | _ => .error ("Invalid " ++ key ++ " in parse result for \"" ++ fileName ++ "\"")

/-- `BoundingBox` from `types.ts`. -/
structure BoundingBox where
  minX : Rat
  minY : Rat
  maxX : Rat
  maxY : Rat
  deriving DecidableEq, Repr

/-- `LayerMeta` from `types.ts` (all counters are finite JavaScript
numbers at this point, hence rationals). -/
structure LayerMeta where
  bounds : BoundingBox
  vertexCount : Rat
  indexCount : Rat
  commandCount : Rat
  warningCount : Rat
  warnings : List String
  deriving DecidableEq, Repr

/-- `toLayerMeta` from `parse-worker.ts`. -/
def toLayerMeta (value : JsVal) (fileName : String) : Except String LayerMeta := do
  if !isObjectB value then
    throw ("Invalid parse result for \"" ++ fileName ++ "\"")
  let boundsRecord ← readObject value "bounds" fileName
  let minX ← readNumber boundsRecord "min_x" fileName
  let minY ← readNumber boundsRecord "min_y" fileName
  let maxX ← readNumber boundsRecord "max_x" fileName
  let maxY ← readNumber boundsRecord "max_y" fileName
  let vertexCount ← readNumber value "vertex_count" fileName
  let indexCount ← readNumber value "index_count" fileName
  let commandCount ← readNumber value "command_count" fileName
  let warningCount ← readNumber value "warning_count" fileName
  let warnings ← readWarnings value "warnings" fileName
  pure ⟨⟨minX, minY, maxX, maxY⟩, vertexCount, indexCount, commandCount, warningCount, warnings⟩

/-- A well-formed wasm meta object, for tests and witnesses. -/
def sampleWasmMeta : JsVal :=
  .vObj
    [ ("bounds", .vObj
        [ ("min_x", .vNum true 0), ("min_y", .vNum true 0),
          ("max_x", .vNum true 10), ("max_y", .vNum true 20) ]),
      ("vertex_count", .vNum true 4), ("index_count", .vNum true 6),
      ("command_count", .vNum true 1), ("warning_count", .vNum true 0),
      ("warnings", .vArr []) ]

example :
    toLayerMeta sampleWasmMeta "board.GTL" =
      .ok ⟨⟨0, 0, 10, 20⟩, 4, 6, 1, 0, []⟩ := by decide

example :
    toLayerMeta (.vStr "oops") "board.GTL" =
      .error "Invalid parse result for \"board.GTL\"" := by decide

example :
    toLayerMeta (.vObj [("bounds", .vNum true 3)]) "f" =
      .error "Invalid bounds in parse result for \"f\"" := by decide

/-! ## The wasm host boundary

The Rust/wasm geometry core (`crates/gerberview-wasm`) is not part of
this checkout; only its TypeScript callers are.  Its host boundary is
modelled from the spec. -/

/-- Modelled from the spec: the geometry the wasm core produces for one
parse — the raw JavaScript metadata value handed back to the host plus
the two typed arrays the getters expose.  The functions producing it are
kept abstract (fields of `WasmModule`) because the core's source is
missing from this checkout. -/
structure WasmGeom where
  meta : JsVal
  positions : List Rat
  indices : List Nat

/-- Modelled from the spec: the behaviour of the missing wasm module —
what geometry each entry point produces for given input bytes. -/
structure WasmModule where
  gerberOut : List Nat → WasmGeom
  excellonOut : List Nat → WasmGeom

/-- Modelled from the spec (§9 design notes): "the exported parse
function stores its result in a process-wide slot that the host
retrieves via two subsequent getters".  `none` is the state before any
parse. -/
def WasmSlot : Type := Option WasmGeom

namespace Wasm

/-- Modelled from the spec: the exported `parse_gerber` — parses, stores
the result in the process-wide slot, and returns the metadata value. -/
def parse_gerber (m : WasmModule) (bytes : List Nat) (_slot : WasmSlot) : JsVal × WasmSlot :=
  let g := m.gerberOut bytes
  (g.meta, some g)

/-- Modelled from the spec: the exported `parse_excellon`. -/
def parse_excellon (m : WasmModule) (bytes : List Nat) (_slot : WasmSlot) : JsVal × WasmSlot :=
  let g := m.excellonOut bytes
  (g.meta, some g)

/-- Modelled from the spec: the exported `get_positions` getter reading
the slot. -/
def get_positions (slot : WasmSlot) : List Rat :=
  match slot with
  | some g => g.positions
  | none => []

/-- Modelled from the spec: the exported `get_indices` getter reading
the slot. -/
def get_indices (slot : WasmSlot) : List Nat :=
  match slot with
  | some g => g.indices
  | none => []

end Wasm

/-- `parseFile` from `parse-worker.ts`: dispatches on the payload's
`fileType`, validates the raw metadata with `toLayerMeta`, and returns
it with the two getter arrays.  The slot state is threaded explicitly
(in the source it is the wasm instance's hidden global). -/
def parseFile (m : WasmModule) (file : FilePayload) (slot : WasmSlot) :
    Except String (LayerMeta × List Rat × List Nat) × WasmSlot :=
  let bytes := file.content
  let parsed :=
    if file.fileType = FileType.gerber then Wasm.parse_gerber m bytes slot
    else Wasm.parse_excellon m bytes slot
  match toLayerMeta parsed.1 file.fileName with
  | .ok meta => (.ok (meta, Wasm.get_positions parsed.2, Wasm.get_indices parsed.2), parsed.2)
  | .error e => (.error e, parsed.2)

/-- A field value of the posted `layer-result` message. -/
inductive MsgVal where
  | mStr (s : String)
  | mLayer (t : LayerType)
  | mMeta (m : LayerMeta)
  | mF32 (xs : List Rat)
  | mU32 (xs : List Nat)
  deriving DecidableEq, Repr

/-- `postLayerResult` from `parse-worker.ts`, rendered as the field list
of the object literal passed to `postMessage` (in source order). -/
def postLayerResult (requestId : String) (file : FilePayload) (meta : LayerMeta)
    (positions : List Rat) (indices : List Nat) : List (String × MsgVal) :=
  [ ("type", .mStr "layer-result"),
    ("requestId", .mStr requestId),
    ("fileName", .mStr file.fileName),
    ("layerType", .mLayer file.layerType),
    ("meta", .mMeta meta),
    ("positions", .mF32 positions),
    ("indices", .mU32 indices) ]

/-! ## View transforms (`interaction/coords.ts`, `interaction/zoom.ts`) -/

/-- `DEFAULT_VIEWER_CONFIG.minZoom` from `constants.ts`. -/
def minZoom : Rat := 1 / 1000

/-- `DEFAULT_VIEWER_CONFIG.maxZoom` from `constants.ts`. -/
def maxZoom : Rat := 10000

/-- `DEFAULT_VIEWER_CONFIG.zoomFactor` from `constants.ts`. -/
def zoomFactor : Rat := 3 / 2

/-- `DEFAULT_VIEWER_CONFIG.fitPadding` from `constants.ts`. -/
def fitPadding : Rat := 1 / 20

/-- `ViewState` from `types.ts`. -/
structure ViewState where
  centerX : Rat
  centerY : Rat
  zoom : Rat
  deriving DecidableEq, Repr

/-- `Point` from `types.ts`. -/
structure Point where
  x : Rat
  y : Rat
  deriving DecidableEq, Repr

/-- `getBaseScale` from `interaction/coords.ts`. -/
def getBaseScale (boardBounds : Option BoundingBox) (canvasWidth canvasHeight : Rat) : Rat :=
  match boardBounds with
  | none => 1
  | some bb =>
    if canvasWidth ≤ 0 ∨ canvasHeight ≤ 0 then 1
    else
      let boardWidth := bb.maxX - bb.minX
      let boardHeight := bb.maxY - bb.minY
      if boardWidth ≤ 0 ∨ boardHeight ≤ 0 then 1
      else
        let scaleX := canvasWidth / (boardWidth * (1 + 2 * fitPadding))
        let scaleY := canvasHeight / (boardHeight * (1 + 2 * fitPadding))
        min scaleX scaleY

/-- `screenToBoard` from `interaction/coords.ts`. -/
def screenToBoard (screenPoint : Point) (viewState : ViewState)
    (canvasWidth canvasHeight : Rat) (boardBounds : Option BoundingBox) : Point :=
  match boardBounds with
  | none => ⟨0, 0⟩
  | some _ =>
    let scale := getBaseScale boardBounds canvasWidth canvasHeight * viewState.zoom
    if scale ≤ 0 then ⟨0, 0⟩
    else
      ⟨(screenPoint.x - canvasWidth / 2) / scale + viewState.centerX,
       (canvasHeight / 2 - screenPoint.y) / scale + viewState.centerY⟩

/-- `boardToScreen` from `interaction/coords.ts`. -/
def boardToScreen (boardPoint : Point) (viewState : ViewState)
    (canvasWidth canvasHeight : Rat) (boardBounds : Option BoundingBox) : Point :=
  match boardBounds with
  | none => ⟨0, 0⟩
  | some _ =>
    let scale := getBaseScale boardBounds canvasWidth canvasHeight * viewState.zoom
    ⟨(boardPoint.x - viewState.centerX) * scale + canvasWidth / 2,
     canvasHeight / 2 - (boardPoint.y - viewState.centerY) * scale⟩

/-- `applyZoom` from `interaction/zoom.ts`.  The wheel delta is an
integer step count; `Math.pow(zoomFactor, zoomDelta)` is `zoomFactor ^ zoomDelta`
in exact arithmetic. -/
def applyZoom (currentViewState : ViewState) (cursorScreen : Point) (zoomDelta : Int)
    (boardBounds : Option BoundingBox) (canvasWidth canvasHeight : Rat) : ViewState :=
  let currentZoom := currentViewState.zoom
  let rawZoom := currentZoom * zoomFactor ^ zoomDelta
  let newZoom := min maxZoom (max minZoom rawZoom)
  if newZoom = currentZoom then currentViewState
  else
    let cursorBoard :=
      screenToBoard cursorScreen currentViewState canvasWidth canvasHeight boardBounds
    let ratio := currentZoom / newZoom
    { centerX := cursorBoard.x - (cursorBoard.x - currentViewState.centerX) * ratio,
      centerY := cursorBoard.y - (cursorBoard.y - currentViewState.centerY) * ratio,
      zoom := newZoom }

example :
    (applyZoom ⟨50, 40, 1⟩ ⟨400, 300⟩ 1 (some ⟨0, 0, 100, 80⟩) 800 600).zoom = 3 / 2 := by
  norm_num [applyZoom, screenToBoard, getBaseScale, zoomFactor, minZoom, maxZoom, fitPadding]

example :
    screenToBoard ⟨400, 300⟩ ⟨50, 40, 1⟩ 800 600 (some ⟨0, 0, 100, 80⟩) = ⟨50, 40⟩ := by
  norm_num [screenToBoard, getBaseScale, fitPadding]

/-! ## Spec-modelled geometry core

The Rust geometry core (`crates/gerberview-wasm/src`) is absent from
this checkout, so the builder (§4.1 of the spec) and the entry façade
(§4.11, §7) are modelled from the spec's words. -/

/-- Modelled from the spec (§3): the geometry record an entry call
emits.  Positions are the flat `x0, y0, x1, y1, …` buffer (the f64→f32
narrowing at finish is the identity on this rational model); `V` is
`positions.length / 2`. -/
structure GeometryRecord where
  positions : List Rat
  indices : List Nat
  bounds : BoundingBox
  commandCount : Nat
  vertexCount : Nat
  indexCount : Nat
  warningCount : Nat
  warnings : List String
  clearRanges : List (Nat × Nat)
  deriving DecidableEq, Repr

/-- Modelled from the spec (§4.1): the builder's append-only state.
`capped` records that the 2³¹ index-width guard fired and the builder
"stops accepting further geometry". -/
structure Builder where
  positions : List Rat
  indices : List Nat
  warnings : List String
  boundsAcc : Option BoundingBox
  clearStart : Option Nat
  clearRanges : List (Nat × Nat)
  capped : Bool
  deriving DecidableEq, Repr

/-- Current vertex count of the builder. -/
def Builder.vertexCount (b : Builder) : Nat :=
  b.positions.length / 2

/-- The builder created at call entry. -/
def Builder.empty : Builder :=
  ⟨[], [], [], none, none, [], false⟩

/-- Incremental bounding-box update on every vertex (§4.1). -/
def updateBounds : Option BoundingBox → Rat → Rat → Option BoundingBox
  | none, x, y => some ⟨x, y, x, y⟩
  | some bb, x, y => some ⟨min bb.minX x, min bb.minY y, max bb.maxX x, max bb.maxY y⟩

/-- `warn(message)` (§4.1): warnings append in raise order. -/
def Builder.warn (b : Builder) (msg : String) : Builder :=
  { b with warnings := b.warnings ++ [msg] }

/-- The index-width guard of §4.1: the builder refuses indices `≥ 2³¹`. -/
def indexCap : Nat := 2 ^ 31

/-- Modelled from the spec (§4.1): `push_vertex(x, y) → index`.  Every
rational is finite, so the non-finite rejection branch cannot fire in
this model; when the 2³¹ cap is reached the builder warns once and stops
accepting geometry, returning the current count as a dummy index. -/
def Builder.push_vertex (b : Builder) (x y : Rat) : Builder × Nat :=
  if b.capped then (b, b.vertexCount)
  else if indexCap ≤ b.vertexCount then
    ({ b.warn "index limit reached: dropping further geometry" with capped := true },
      b.vertexCount)
  else
    ({ b with positions := b.positions ++ [x, y], boundsAcc := updateBounds b.boundsAcc x y },
      b.vertexCount)

/-- Modelled from the spec (§4.1): `push_triangle(i0, i1, i2)`; the
guarantee "every pushed index is < current vertex count" is enforced by
skipping (with a warning) any triangle that would violate it. -/
def Builder.push_triangle (b : Builder) (i0 i1 i2 : Nat) : Builder :=
  if b.capped then b
  else if i0 < b.vertexCount ∧ i1 < b.vertexCount ∧ i2 < b.vertexCount then
    { b with indices := b.indices ++ [i0, i1, i2] }
  else b.warn "triangle index out of range: skipped"

/-- Modelled from the spec (§4.1): `push_quad` = two triangles with
winding `i0-i1-i2`, `i0-i2-i3`. -/
def Builder.push_quad (b : Builder) (i0 i1 i2 i3 : Nat) : Builder :=
  (b.push_triangle i0 i1 i2).push_triangle i0 i2 i3

/-- Modelled from the spec (§4.1): `open_clear_range` records the
current index count; nested opens are idempotent. -/
def Builder.open_clear_range (b : Builder) : Builder :=
  match b.clearStart with
  | some _ => b
  | none => { b with clearStart := some b.indices.length }

/-- Modelled from the spec (§4.1): `close_clear_range` records the
length of the open run. -/
def Builder.close_clear_range (b : Builder) : Builder :=
  match b.clearStart with
  | none => b
  | some s =>
    { b with clearStart := none,
             clearRanges := b.clearRanges ++ [(s, b.indices.length - s)] }

/-- Modelled from the spec (§4.1): on finish, overlapping or zero-length
clear ranges are coalesced (ranges arrive in increasing start order). -/
def coalesceRanges : List (Nat × Nat) → List (Nat × Nat)
  | [] => []
  | (s, l) :: rest =>
    if l = 0 then coalesceRanges rest
    else
      match coalesceRanges rest with
      | [] => [(s, l)]
      | (s2, l2) :: tail =>
        if s2 ≤ s + l then (s, max (s + l) (s2 + l2) - s) :: tail
        else (s, l) :: (s2, l2) :: tail

/-- Modelled from the spec (§4.1): `finish() → GeometryRecord`; an empty
builder's undefined box collapses to `(0,0,0,0)`; the command counter is
the interpreter's and is patched in by the caller. -/
def Builder.finish (b : Builder) : GeometryRecord :=
  { positions := b.positions,
    indices := b.indices,
    bounds := b.boundsAcc.getD ⟨0, 0, 0, 0⟩,
    commandCount := 0,
    vertexCount := b.positions.length / 2,
    indexCount := b.indices.length,
    warningCount := b.warnings.length,
    warnings := b.warnings,
    clearRanges := coalesceRanges b.clearRanges }

/-- A builder call, as issued by any geometry producer.  Composite
emitters of §4.2–§4.7 (n-gons, flashes, strokes, region fills,
step-repeat copies) reduce to sequences of these primitive calls. -/
inductive BuilderOp where
  | pushVertex (x y : Rat)
  | pushTriangle (i0 i1 i2 : Nat)
  | pushQuad (i0 i1 i2 i3 : Nat)
  | warnOp (msg : String)
  | openClear
  | closeClear
  deriving DecidableEq, Repr

/-- One builder call applied to the state (the index returned by
`push_vertex` is the caller's business and is dropped here). -/
def Builder.applyOp (b : Builder) : BuilderOp → Builder
  | .pushVertex x y => (b.push_vertex x y).1
  | .pushTriangle i0 i1 i2 => b.push_triangle i0 i1 i2
  | .pushQuad i0 i1 i2 i3 => b.push_quad i0 i1 i2 i3
  | .warnOp msg => b.warn msg
  | .openClear => b.open_clear_range
  | .closeClear => b.close_clear_range

/-- The builder state after an arbitrary producer run. -/
def runOps (ops : List BuilderOp) : Builder :=
  ops.foldl Builder.applyOp Builder.empty

/-! ## Spec-modelled entry façade (§4.11, §7) -/

/-- Modelled from the spec (§7): the only fatal error kinds of the entry
façade. -/
inductive ParseError where
  | invalidEncoding
  | emptyInput
  deriving DecidableEq, Repr

/-- Modelled from the spec (§4.8): scan for a byte `≥ 0x80` outside a
comment; `G04 … *` brackets a Gerber comment (byte values 71 48 52 and
42). -/
def scanEncoding : Bool → List Nat → Bool
  | _, [] => false
  | true, b :: rest => if b = 42 then scanEncoding false rest else scanEncoding true rest
  | false, 71 :: 48 :: 52 :: rest => scanEncoding true rest
  | false, b :: rest => if 128 ≤ b then true else scanEncoding false rest

/-- Modelled from the spec (§4.8, §7): "non-UTF-8 byte outside comments;
fatal for the file". -/
def hasInvalidEncoding (bytes : List Nat) : Bool :=
  scanEncoding false bytes

/-- Split a byte list at every occurrence of `sep` (the `*` command
terminator). -/
def splitBytes (sep : Nat) : List Nat → List (List Nat)
  | [] => [[]]
  | b :: rest =>
    let groups := splitBytes sep rest
    if b = sep then [] :: groups
    else
      match groups with
      | g :: gs => (b :: g) :: gs
      | [] => [[b]]

/-- Whitespace bytes (space, tab, CR, LF) are irrelevant outside
literals (§4.8). -/
def stripWs (cmd : List Nat) : List Nat :=
  cmd.filter (fun b => b ≠ 9 && b ≠ 10 && b ≠ 13 && b ≠ 32)

/-- Modelled from the spec (§4.9, §7): the Gerber interpreter never
fails — individual failures degrade to warnings — so it is a total
function from command text to a geometry record.  Only the behaviour
the façade claims depend on is modelled: the command count and the
truncation warning when `M02` is never observed. -/
def gerberInterpret (bytes : List Nat) : GeometryRecord :=
  let commands := (splitBytes 42 bytes).map stripWs |>.filter (fun c => !c.isEmpty)
  let b0 := Builder.empty
  let b1 :=
    if commands.any (fun c => c = bytesOfAscii "M02") then b0
    else b0.warn "truncated file: M02 not observed"
  { b1.finish with commandCount := commands.length }

/-- Modelled from the spec (§4.10, §7): the Excellon parser likewise
degrades all failures to warnings; `M30` is its end-of-program marker. -/
def excellonInterpret (bytes : List Nat) : GeometryRecord :=
  let lines := ((splitBytes 10 bytes).map stripWs).filter (fun c => !c.isEmpty)
  let b0 := Builder.empty
  let b1 :=
    if lines.any (fun c => c = bytesOfAscii "M30") then b0
    else b0.warn "truncated file: M30 not observed"
  { b1.finish with commandCount := lines.length }

namespace Core

/-- Modelled from the spec (§4.11, §7): `parse_gerber(bytes)` — "the
entry façade returns an error only for InvalidEncoding or when the byte
slice is empty; in every other case it returns a (possibly-empty,
possibly-partial) geometry record".  Totality of the Lean definition is
the model of "no panics on any input". -/
def parse_gerber (bytes : List Nat) : Except ParseError GeometryRecord :=
  if bytes.isEmpty then .error .emptyInput
  else if hasInvalidEncoding bytes then .error .invalidEncoding
  else .ok (gerberInterpret bytes)

/-- Modelled from the spec (§4.11, §7): `parse_excellon(bytes)`; the
encoding scan is shared with the Gerber side. -/
def parse_excellon (bytes : List Nat) : Except ParseError GeometryRecord :=
  if bytes.isEmpty then .error .emptyInput
  else if hasInvalidEncoding bytes then .error .invalidEncoding
  else .ok (excellonInterpret bytes)

end Core

example : Core.parse_gerber [] = .error ParseError.emptyInput := by decide

example : (Core.parse_gerber (bytesOfAscii "X0Y0D03*M02*")).isOk = true := by decide

example : (Core.parse_gerber [200]).isOk = false := by decide

example : (Core.parse_excellon (bytesOfAscii "M48\nM30")).isOk = true := by decide

/-! ## Theorems -/

lemma processEntries_fileTypes (maxB : Nat) (entries : List ZipEntry) :
    ∀ (total : Nat) (acc res : List IdentifiedFile),
      (∀ f ∈ acc, f.fileType ≠ FileType.unknown) →
      processEntries maxB entries total acc = .ok res →
      ∀ f ∈ res, f.fileType ≠ FileType.unknown := by
  induction entries with
  | nil =>
    intro total acc res hacc h
    simp only [processEntries, Except.ok.injEq] at h
    exact h ▸ hacc
  | cons e rest ih =>
    intro total acc res hacc h
    simp only [processEntries] at h
    split at h
    · exact ih total acc res hacc h
    · split at h
      · split at h <;> cases h
      · split at h
        · cases h
        · split at h
          · split at h
            · rename_i hne
              refine ih _ _ res ?_ h
              intro f hf
              rcases List.mem_append.mp hf with hf | hf
              · exact hacc f hf
              · rcases List.mem_singleton.mp hf with rfl
                exact hne
            · exact ih _ acc res hacc h
          · rename_i hne
            refine ih _ _ res ?_ h
            intro f hf
            rcases List.mem_append.mp hf with hf | hf
            · exact hacc f hf
            · rcases List.mem_singleton.mp hf with rfl
              exact hne

lemma extractAndIdentify_fileTypes (entries : List ZipEntry) (maxBytes : Nat)
    (res : List IdentifiedFile) (h : extractAndIdentify entries maxBytes = .ok res) :
    ∀ f ∈ res, f.fileType ≠ FileType.unknown := by
  simp only [extractAndIdentify] at h
  split at h
  · cases h
  · split at h
    · cases h
    · rename_i results heq
      split at h
      · cases h
      · rcases h with ⟨rfl⟩
        exact processEntries_fileTypes maxBytes _ 0 [] res (by simp) heq

lemma toWorkerPayload_fileTypes (files : List IdentifiedFile) :
    ∀ (payload : List FilePayload), toWorkerPayload files = .ok payload →
      ∀ p ∈ payload, p.fileType ≠ FileType.unknown := by
  induction files with
  | nil =>
    intro payload h
    simp only [toWorkerPayload, Except.ok.injEq] at h
    simp [← h]
  | cons f rest ih =>
    intro payload h
    simp only [toWorkerPayload] at h
    split at h
    · cases h
    · rename_i hne
      revert h
      split
      · rename_i tailPayload htail
        intro h
        rcases h with ⟨rfl⟩
        intro p hp
        rcases List.mem_cons.mp hp with rfl | hp
        · exact hne
        · exact ih tailPayload htail p hp
      · intro h; cases h

/-- C1: `identifyLayer` always delivers one of the three tags `gerber`,
`excellon`, `unknown`; every `IdentifiedFile` returned by
`extractAndIdentify` is tagged `gerber` or `excellon` (files still
`unknown` after the content fallback are filtered out); and every file
forwarded by `toWorkerPayload` is tagged `gerber` or `excellon`. -/
theorem claim_C1 :
    (∀ fileName, (identifyLayer fileName).fileType = FileType.gerber ∨
      (identifyLayer fileName).fileType = FileType.excellon ∨
      (identifyLayer fileName).fileType = FileType.unknown) ∧
    (∀ entries maxBytes res, extractAndIdentify entries maxBytes = .ok res →
      ∀ f ∈ res, f.fileType = FileType.gerber ∨ f.fileType = FileType.excellon) ∧
    (∀ files payload, toWorkerPayload files = .ok payload →
      ∀ p ∈ payload, p.fileType = FileType.gerber ∨ p.fileType = FileType.excellon) := by
  refine ⟨?_, ?_, ?_⟩
  · intro fileName
    cases (identifyLayer fileName).fileType <;> simp
  · intro entries maxBytes res h f hf
    have := extractAndIdentify_fileTypes entries maxBytes res h f hf
    cases hft : f.fileType <;> simp_all
  · intro files payload h p hp
    have := toWorkerPayload_fileTypes files payload h p hp
    cases hft : p.fileType <;> simp_all

/-- Witness for C1 at a concrete archive: a single `board.GTL` entry is
extracted, identified as Gerber, and forwarded. -/
theorem claim_C1_witness :
    IdentifiedFile.fileType ⟨"board.GTL", LayerType.TopCopper, FileType.gerber,
        bytesOfAscii "%FSLAX36Y36*%"⟩ = FileType.gerber ∨
      IdentifiedFile.fileType ⟨"board.GTL", LayerType.TopCopper, FileType.gerber,
        bytesOfAscii "%FSLAX36Y36*%"⟩ = FileType.excellon :=
  claim_C1.2.1 [⟨"board.GTL", false, bytesOfAscii "%FSLAX36Y36*%", none⟩]
    MAX_UNCOMPRESSED_SIZE
    [⟨"board.GTL", LayerType.TopCopper, FileType.gerber, bytesOfAscii "%FSLAX36Y36*%"⟩]
    (by decide) _ (by decide)

/-- A 105-byte content whose first 256 bytes contain `%FSLAX`, but only
from offset 99 on — outside the 100-byte window the code inspects. -/
def lateHeaderBytes : List Nat :=
  List.replicate 99 65 ++ bytesOfAscii "%FSLAX24Y24*%"

/-- C2 fails as stated: this file's first 256 bytes contain the literal
`%FSLAX`, yet content classification does not deliver the tag `gerber`
(it delivers no tag at all), because the code inspects only the first
100 bytes (`CONTENT_INSPECT_BYTES`), not 256. -/
theorem claim_C2_counterexample :
    listContainsSub (bytesOfAscii "%FSLAX") (lateHeaderBytes.take 256) = true ∧
      identifyByContent "board.dat" lateHeaderBytes = none := by
  constructor <;> decide

/-- C2 (amended): content classification inspects only the first 100
bytes (not 256).  If that window contains the literal `%FSLAX` the tag
is `gerber`; otherwise, if it contains `M48` anywhere (not only at a
line start) the tag is `excellon`. -/
theorem claim_C2_amended (fileName : String) (content : List Nat) :
    (listContainsSub (bytesOfAscii "%FSLAX") (content.take 100) = true →
      identifyByContent fileName content =
        some ⟨fileName, LayerType.Unknown, FileType.gerber⟩) ∧
    (listContainsSub (bytesOfAscii "%FSLAX") (content.take 100) = false →
      listContainsSub (bytesOfAscii "M48") (content.take 100) = true →
      identifyByContent fileName content =
        some ⟨fileName, LayerType.Drill, FileType.excellon⟩) := by
  constructor
  · intro h
    simp [identifyByContent, contentInspectBytes, h]
  · intro h1 h2
    simp [identifyByContent, contentInspectBytes, h1, h2]

/-- Witness for the amended C2 at concrete Gerber and Excellon
headers. -/
theorem claim_C2_witness :
    identifyByContent "board.dat" (bytesOfAscii "%FSLAX24Y24*%") =
        some ⟨"board.dat", LayerType.Unknown, FileType.gerber⟩ ∧
      identifyByContent "holes.txt" (bytesOfAscii "M48\nMETRIC") =
        some ⟨"holes.txt", LayerType.Drill, FileType.excellon⟩ :=
  ⟨(claim_C2_amended "board.dat" (bytesOfAscii "%FSLAX24Y24*%")).1 (by decide),
    (claim_C2_amended "holes.txt" (bytesOfAscii "M48\nMETRIC")).2 (by decide) (by decide)⟩

/-- C3 fails as stated: the layer record posted for a successfully
parsed file carries no `clear_ranges` field — here, concretely, for a
parsed `board.GTL`. -/
theorem claim_C3_counterexample :
    "clear_ranges" ∉
      (postLayerResult "req-1" ⟨"board.GTL", LayerType.TopCopper, FileType.gerber, []⟩
          ⟨⟨0, 0, 10, 20⟩, 4, 6, 1, 0, []⟩ [0, 0, 10, 0, 10, 20, 0, 20]
          [0, 1, 2, 0, 2, 3]).map Prod.fst := by
  decide

/-- C3 (amended): the layer record delivered to collaborators carries
exactly the fields `type`, `requestId`, `fileName`, `layerType`, `meta`,
`positions`, `indices` — and in particular no `clear_ranges` field;
clear-polarity run information does not cross the worker boundary. -/
theorem claim_C3_amended (requestId : String) (file : FilePayload) (meta : LayerMeta)
    (positions : List Rat) (indices : List Nat) :
    (postLayerResult requestId file meta positions indices).map Prod.fst =
        ["type", "requestId", "fileName", "layerType", "meta", "positions", "indices"] ∧
      "clear_ranges" ∉ (postLayerResult requestId file meta positions indices).map Prod.fst := by
  constructor <;> simp [postLayerResult]

/-- C4: `parseFile` hands the bytes to `parse_gerber` exactly when the
payload is tagged `gerber` and to `parse_excellon` otherwise, and the
arrays it returns are the getters' view of that same parse — the
geometry the dispatched entry point just stored in the slot, unchanged,
regardless of what the slot held before. -/
theorem claim_C4 (m : WasmModule) (file : FilePayload) (slot : WasmSlot) :
    (parseFile m file slot).2 =
        some (if file.fileType = FileType.gerber then m.gerberOut file.content
          else m.excellonOut file.content) ∧
      ∀ meta positions indices,
        (parseFile m file slot).1 = .ok (meta, positions, indices) →
        positions = (if file.fileType = FileType.gerber then m.gerberOut file.content
          else m.excellonOut file.content).positions ∧
        indices = (if file.fileType = FileType.gerber then m.gerberOut file.content
          else m.excellonOut file.content).indices ∧
        toLayerMeta (if file.fileType = FileType.gerber then m.gerberOut file.content
          else m.excellonOut file.content).meta file.fileName = .ok meta := by
  by_cases hft : file.fileType = FileType.gerber
  · cases htm : toLayerMeta (m.gerberOut file.content).meta file.fileName with
    | ok meta0 =>
      refine ⟨by simp [parseFile, Wasm.parse_gerber, hft, htm], ?_⟩
      intro meta positions indices h
      simp only [parseFile, Wasm.parse_gerber, hft, if_true, Wasm.get_positions,
        Wasm.get_indices, htm] at h
      rcases h with ⟨rfl, rfl, rfl⟩
      simp [hft, htm]
    | error e =>
      refine ⟨by simp [parseFile, Wasm.parse_gerber, hft, htm], ?_⟩
      intro meta positions indices h
      simp [parseFile, Wasm.parse_gerber, hft, htm] at h
  · cases htm : toLayerMeta (m.excellonOut file.content).meta file.fileName with
    | ok meta0 =>
      refine ⟨by simp [parseFile, Wasm.parse_excellon, hft, htm], ?_⟩
      intro meta positions indices h
      simp only [parseFile, Wasm.parse_excellon, hft, if_false, Wasm.get_positions,
        Wasm.get_indices, htm] at h
      rcases h with ⟨rfl, rfl, rfl⟩
      simp [hft, htm]
    | error e =>
      refine ⟨by simp [parseFile, Wasm.parse_excellon, hft, htm], ?_⟩
      intro meta positions indices h
      simp [parseFile, Wasm.parse_excellon, hft, htm] at h

/-- A concrete wasm behaviour for the C4 witness. -/
def sampleWasmModule : WasmModule :=
  ⟨fun _ => ⟨sampleWasmMeta, [0, 0, 10, 0, 10, 20, 0, 20], [0, 1, 2, 0, 2, 3]⟩,
    fun _ => ⟨sampleWasmMeta, [], []⟩⟩

/-- The payload used by the C4 witness. -/
def sampleGerberPayload : FilePayload :=
  ⟨"board.GTL", LayerType.TopCopper, FileType.gerber, []⟩

/-- Witness for C4: a concrete Gerber payload parsed against
`sampleWasmModule` from an empty slot. -/
theorem claim_C4_witness :
    ([0, 0, 10, 0, 10, 20, 0, 20] : List Rat) = (sampleWasmModule.gerberOut []).positions ∧
      ([0, 1, 2, 0, 2, 3] : List Nat) = (sampleWasmModule.gerberOut []).indices ∧
      toLayerMeta (sampleWasmModule.gerberOut []).meta "board.GTL" =
        .ok ⟨⟨0, 0, 10, 20⟩, 4, 6, 1, 0, []⟩ := by
  have h := (claim_C4 sampleWasmModule sampleGerberPayload none).2
    ⟨⟨0, 0, 10, 20⟩, 4, 6, 1, 0, []⟩ [0, 0, 10, 0, 10, 20, 0, 20] [0, 1, 2, 0, 2, 3]
    (by decide)
  simpa [sampleGerberPayload] using h

/-- `Number.isFinite`-style test used by the C5 acceptance predicate. -/
def isFiniteNumB : JsVal → Bool
  | .vNum true _ => true
  | _ => false

/-- `typeof item === "string"` as a boolean test. -/
def isStringB : JsVal → Bool
  | .vStr _ => true
  | _ => false

/-- The acceptance condition exactly as the spec sentence states it: the
value is an object whose `bounds` field holds finite numbers `min_x`,
`min_y`, `max_x`, `max_y`, whose four counters are finite numbers, and
whose `warnings` field is an array with every element a string. -/
def specAcceptsLayerMeta (v : JsVal) : Bool :=
  isObjectB v &&
    (isFiniteNumB (jsGet (jsGet v "bounds") "min_x") &&
      isFiniteNumB (jsGet (jsGet v "bounds") "min_y") &&
      isFiniteNumB (jsGet (jsGet v "bounds") "max_x") &&
      isFiniteNumB (jsGet (jsGet v "bounds") "max_y")) &&
    (isFiniteNumB (jsGet v "vertex_count") && isFiniteNumB (jsGet v "index_count") &&
      isFiniteNumB (jsGet v "command_count") && isFiniteNumB (jsGet v "warning_count")) &&
    (match jsGet v "warnings" with
      | .vArr items => items.all isStringB
      | _ => false)

lemma isOk_bind {ε α β : Type} (x : Except ε α) (g : α → Except ε β) :
    (x >>= g).isOk = (match x with | .ok a => (g a).isOk | .error _ => false) := by
  cases x <;> rfl

lemma throw_bind {ε α β : Type} (e : ε) (g : α → Except ε β) :
    ((throw e : Except ε α) >>= g) = .error e := rfl

lemma isOk_error {ε α : Type} (e : ε) : (Except.error e : Except ε α).isOk = false := rfl

lemma isOk_ok {ε α : Type} (a : α) : (Except.ok a : Except ε α).isOk = true := rfl

lemma isOk_map {ε α β : Type} (g : α → β) (x : Except ε α) :
    (g <$> x).isOk = x.isOk := by cases x <;> rfl

lemma jsGet_of_not_object {v : JsVal} (h : isObjectB v = false) (k : String) :
    jsGet v k = JsVal.vUndefined := by
  cases v <;> simp_all [isObjectB, jsGet]

lemma readObject_of_object {v : JsVal} {k f : String} (h : isObjectB (jsGet v k) = true) :
    readObject v k f = .ok (jsGet v k) := by
  simp [readObject, h]

lemma readObject_of_not_object {v : JsVal} {k f : String} (h : isObjectB (jsGet v k) = false) :
    readObject v k f = .error ("Invalid " ++ k ++ " in parse result for \"" ++ f ++ "\"") := by
  simp [readObject, h]

lemma isOk_bind_readNumber {β : Type} (s : JsVal) (k f : String) (g : Rat → Except String β) :
    (readNumber s k f >>= g).isOk =
      (match jsGet s k with
        | .vNum true q => (g q).isOk
        | _ => false) := by
  unfold readNumber
  cases h : jsGet s k with
  | vNum fin q => cases fin <;> simp [isOk_bind]
  | vNull => simp [isOk_bind]
  | vUndefined => simp [isOk_bind]
  | vBool b => simp [isOk_bind]
  | vStr s => simp [isOk_bind]
  | vArr es => simp [isOk_bind]
  | vObj fs => simp [isOk_bind]

lemma filterMap_pickStr_length (items : List JsVal) :
    ((items.filterMap pickStr).length = items.length) ↔ items.all isStringB = true := by
  induction items with
  | nil => simp
  | cons x rest ih =>
    cases x <;> simp [pickStr, isStringB, List.filterMap_cons, ih] <;>
      (have hlen2 := List.length_filterMap_le pickStr rest; omega)

lemma readWarnings_isOk (s : JsVal) (k f : String) :
    (readWarnings s k f).isOk =
      (match jsGet s k with
        | .vArr items => items.all isStringB
        | _ => false) := by
  unfold readWarnings
  cases h : jsGet s k with
  | vArr items =>
    by_cases hlen : (items.filterMap pickStr).length = items.length
    · simp only [hlen, if_true, if_pos]
      simp [(filterMap_pickStr_length items).mp hlen, isOk_ok]
    · have hall : items.all isStringB = false := by
        rcases hb : items.all isStringB
        · rfl
        · exact absurd ((filterMap_pickStr_length items).mpr hb) hlen
      simp only [hall]
      rw [if_neg hlen]
      exact isOk_error _
  | vNull => exact isOk_error _
  | vUndefined => exact isOk_error _
  | vBool b => exact isOk_error _
  | vNum fin q => exact isOk_error _
  | vStr s2 => exact isOk_error _
  | vObj fs => exact isOk_error _

/-- `toLayerMeta` succeeds exactly on the values accepted by the spec's
condition; on every other value it returns an error instead of a layer
record. -/
lemma toLayerMeta_isOk_eq (value : JsVal) (fileName : String) :
    (toLayerMeta value fileName).isOk = specAcceptsLayerMeta value := by
  unfold toLayerMeta specAcceptsLayerMeta
  by_cases hobj : isObjectB value
  case neg =>
    simp only [Bool.not_eq_true] at hobj
    simp [hobj, throw_bind, isOk_error]
  case pos =>
    simp only [hobj, Bool.not_true, Bool.true_and, Bool.false_eq_true, if_false, pure_bind]
    by_cases hb : isObjectB (jsGet value "bounds")
    case neg =>
      simp only [Bool.not_eq_true] at hb
      rw [isOk_bind, readObject_of_not_object hb, jsGet_of_not_object hb]
      simp [isFiniteNumB, jsGet]
    case pos =>
      rw [isOk_bind, readObject_of_object hb]
      dsimp only
      simp only [isOk_bind_readNumber]
      cases h1 : jsGet (jsGet value "bounds") "min_x" <;> try simp [isFiniteNumB]
      rename_i fin1 q1
      cases fin1 <;> try simp [isFiniteNumB]
      cases h2 : jsGet (jsGet value "bounds") "min_y" <;> try simp [isFiniteNumB]
      rename_i fin2 q2
      cases fin2 <;> try simp [isFiniteNumB]
      cases h3 : jsGet (jsGet value "bounds") "max_x" <;> try simp [isFiniteNumB]
      rename_i fin3 q3
      cases fin3 <;> try simp [isFiniteNumB]
      cases h4 : jsGet (jsGet value "bounds") "max_y" <;> try simp [isFiniteNumB]
      rename_i fin4 q4
      cases fin4 <;> try simp [isFiniteNumB]
      cases h5 : jsGet value "vertex_count" <;> try simp [isFiniteNumB]
      rename_i fin5 q5
      cases fin5 <;> try simp [isFiniteNumB]
      cases h6 : jsGet value "index_count" <;> try simp [isFiniteNumB]
      rename_i fin6 q6
      cases fin6 <;> try simp [isFiniteNumB]
      cases h7 : jsGet value "command_count" <;> try simp [isFiniteNumB]
      rename_i fin7 q7
      cases fin7 <;> try simp [isFiniteNumB]
      cases h8 : jsGet value "warning_count" <;> try simp [isFiniteNumB]
      rename_i fin8 q8
      cases fin8 <;> try simp [isFiniteNumB]
      rw [isOk_map, readWarnings_isOk]

/-- The `readWarnings` acceptance test as a boolean: an array with every
element a string. -/
def isStringArrayB : JsVal → Bool
  | .vArr items => items.all isStringB
  | _ => false

/-- The first field whose check fails in `toLayerMeta`, in the code's
read order (`bounds`, its four numbers, the four counters, `warnings`);
`none` when the value is not an object or every check passes. -/
def firstOffendingKey (v : JsVal) : Option String :=
  if !isObjectB v then none
  else if !isObjectB (jsGet v "bounds") then some "bounds"
  else if !isFiniteNumB (jsGet (jsGet v "bounds") "min_x") then some "min_x"
  else if !isFiniteNumB (jsGet (jsGet v "bounds") "min_y") then some "min_y"
  else if !isFiniteNumB (jsGet (jsGet v "bounds") "max_x") then some "max_x"
  else if !isFiniteNumB (jsGet (jsGet v "bounds") "max_y") then some "max_y"
  else if !isFiniteNumB (jsGet v "vertex_count") then some "vertex_count"
  else if !isFiniteNumB (jsGet v "index_count") then some "index_count"
  else if !isFiniteNumB (jsGet v "command_count") then some "command_count"
  else if !isFiniteNumB (jsGet v "warning_count") then some "warning_count"
  else if !isStringArrayB (jsGet v "warnings") then some "warnings"
  else none

lemma error_bind {ε α β : Type} (e : ε) (g : α → Except ε β) :
    (Except.error e >>= g : Except ε β) = .error e := rfl

lemma ok_bind {ε α β : Type} (a : α) (g : α → Except ε β) :
    (Except.ok a >>= g : Except ε β) = g a := rfl

lemma isFiniteNumB_exists {v : JsVal} (h : isFiniteNumB v = true) :
    ∃ q, v = JsVal.vNum true q := by
  cases v with
  | vNum fin q =>
    cases fin
    · simp [isFiniteNumB] at h
    · exact ⟨q, rfl⟩
  | vNull => simp [isFiniteNumB] at h
  | vUndefined => simp [isFiniteNumB] at h
  | vBool b => simp [isFiniteNumB] at h
  | vStr s => simp [isFiniteNumB] at h
  | vArr es => simp [isFiniteNumB] at h
  | vObj fs => simp [isFiniteNumB] at h

lemma readNumber_of_finite {s : JsVal} {k f : String} {q : Rat}
    (h : jsGet s k = .vNum true q) : readNumber s k f = .ok q := by
  unfold readNumber
  rw [h]

lemma readNumber_of_not_finite {s : JsVal} {k f : String}
    (h : isFiniteNumB (jsGet s k) = false) :
    readNumber s k f = .error ("Invalid " ++ k ++ " in parse result for \"" ++ f ++ "\"") := by
  unfold readNumber
  cases hj : jsGet s k with
  | vNum fin q =>
    rw [hj] at h
    cases fin
    · rfl
    · simp [isFiniteNumB] at h
  | vNull => rfl
  | vUndefined => rfl
  | vBool b => rfl
  | vStr s2 => rfl
  | vArr es => rfl
  | vObj fs => rfl

lemma readWarnings_of_bad {s : JsVal} {k f : String}
    (h : isStringArrayB (jsGet s k) = false) :
    readWarnings s k f = .error ("Invalid " ++ k ++ " in parse result for \"" ++ f ++ "\"") := by
  unfold readWarnings
  cases hj : jsGet s k with
  | vArr items =>
    rw [hj] at h
    simp only [isStringArrayB] at h
    have hlen : ¬((items.filterMap pickStr).length = items.length) := by
      intro hcon
      rw [(filterMap_pickStr_length items).mp hcon] at h
      cases h
    dsimp only
    rw [if_neg hlen]
  | vNull => rfl
  | vUndefined => rfl
  | vBool b => rfl
  | vNum fin q => rfl
  | vStr s2 => rfl
  | vObj fs => rfl

/-- C5 fails as stated: for the non-object parse result `"oops"` the
code throws `Invalid parse result for "board.GTL"` — an error whose
message contains none of the record's field names, so no offending field
is named. -/
theorem claim_C5_counterexample :
    toLayerMeta (.vStr "oops") "board.GTL" =
        .error "Invalid parse result for \"board.GTL\"" ∧
      (["bounds", "min_x", "min_y", "max_x", "max_y", "vertex_count", "index_count",
          "command_count", "warning_count", "warnings"].all
        (fun k => !strContainsSub "Invalid parse result for \"board.GTL\"" k)) = true := by
  constructor
  · decide
  · decide

/-- C5 (amended): `toLayerMeta` accepts a parse result exactly when it
is an object whose `bounds` field holds finite numbers `min_x`, `min_y`,
`max_x`, `max_y`, whose four counters are finite numbers, and whose
`warnings` field is an array with every element a string; for every
other value it throws an error instead of delivering a layer record —
naming the offending field (the first failing key, in the code's read
order) when the value is an object, but naming only the file
(`Invalid parse result for …`) when the value itself is not an
object. -/
theorem claim_C5_amended (value : JsVal) (fileName : String) :
    (toLayerMeta value fileName).isOk = specAcceptsLayerMeta value ∧
      (isObjectB value = false →
        toLayerMeta value fileName =
          .error ("Invalid parse result for \"" ++ fileName ++ "\"")) ∧
      (∀ k, firstOffendingKey value = some k →
        toLayerMeta value fileName =
          .error ("Invalid " ++ k ++ " in parse result for \"" ++ fileName ++ "\"")) := by
  refine ⟨toLayerMeta_isOk_eq value fileName, ?_, ?_⟩
  · intro h
    simp [toLayerMeta, h, throw_bind]
  · intro k hk
    by_cases hobj : isObjectB value
    case neg =>
      simp only [Bool.not_eq_true] at hobj
      simp [firstOffendingKey, hobj] at hk
    case pos =>
      unfold toLayerMeta
      simp only [hobj, Bool.not_true, Bool.false_eq_true, if_false, pure_bind]
      by_cases hb : isObjectB (jsGet value "bounds")
      case neg =>
        simp only [Bool.not_eq_true] at hb
        have hkey : firstOffendingKey value = some "bounds" := by
          simp [firstOffendingKey, hobj, hb]
        rw [hkey] at hk
        cases hk
        rw [readObject_of_not_object hb, error_bind]
      case pos =>
        rw [readObject_of_object hb]
        simp only [ok_bind]
        by_cases h1 : isFiniteNumB (jsGet (jsGet value "bounds") "min_x")
        case neg =>
          simp only [Bool.not_eq_true] at h1
          have hkey : firstOffendingKey value = some "min_x" := by
            simp [firstOffendingKey, hobj, hb, h1]
          rw [hkey] at hk
          cases hk
          rw [readNumber_of_not_finite h1, error_bind]
        case pos =>
          obtain ⟨q1, hq1⟩ := isFiniteNumB_exists h1
          rw [readNumber_of_finite hq1]
          simp only [ok_bind]
          by_cases h2 : isFiniteNumB (jsGet (jsGet value "bounds") "min_y")
          case neg =>
            simp only [Bool.not_eq_true] at h2
            have hkey : firstOffendingKey value = some "min_y" := by
              simp [firstOffendingKey, hobj, hb, h1, h2]
            rw [hkey] at hk
            cases hk
            rw [readNumber_of_not_finite h2, error_bind]
          case pos =>
            obtain ⟨q2, hq2⟩ := isFiniteNumB_exists h2
            rw [readNumber_of_finite hq2]
            simp only [ok_bind]
            by_cases h3 : isFiniteNumB (jsGet (jsGet value "bounds") "max_x")
            case neg =>
              simp only [Bool.not_eq_true] at h3
              have hkey : firstOffendingKey value = some "max_x" := by
                simp [firstOffendingKey, hobj, hb, h1, h2, h3]
              rw [hkey] at hk
              cases hk
              rw [readNumber_of_not_finite h3, error_bind]
            case pos =>
              obtain ⟨q3, hq3⟩ := isFiniteNumB_exists h3
              rw [readNumber_of_finite hq3]
              simp only [ok_bind]
              by_cases h4 : isFiniteNumB (jsGet (jsGet value "bounds") "max_y")
              case neg =>
                simp only [Bool.not_eq_true] at h4
                have hkey : firstOffendingKey value = some "max_y" := by
                  simp [firstOffendingKey, hobj, hb, h1, h2, h3, h4]
                rw [hkey] at hk
                cases hk
                rw [readNumber_of_not_finite h4, error_bind]
              case pos =>
                obtain ⟨q4, hq4⟩ := isFiniteNumB_exists h4
                rw [readNumber_of_finite hq4]
                simp only [ok_bind]
                by_cases h5 : isFiniteNumB (jsGet value "vertex_count")
                case neg =>
                  simp only [Bool.not_eq_true] at h5
                  have hkey : firstOffendingKey value = some "vertex_count" := by
                    simp [firstOffendingKey, hobj, hb, h1, h2, h3, h4, h5]
                  rw [hkey] at hk
                  cases hk
                  rw [readNumber_of_not_finite h5, error_bind]
                case pos =>
                  obtain ⟨q5, hq5⟩ := isFiniteNumB_exists h5
                  rw [readNumber_of_finite hq5]
                  simp only [ok_bind]
                  by_cases h6 : isFiniteNumB (jsGet value "index_count")
                  case neg =>
                    simp only [Bool.not_eq_true] at h6
                    have hkey : firstOffendingKey value = some "index_count" := by
                      simp [firstOffendingKey, hobj, hb, h1, h2, h3, h4, h5, h6]
                    rw [hkey] at hk
                    cases hk
                    rw [readNumber_of_not_finite h6, error_bind]
                  case pos =>
                    obtain ⟨q6, hq6⟩ := isFiniteNumB_exists h6
                    rw [readNumber_of_finite hq6]
                    simp only [ok_bind]
                    by_cases h7 : isFiniteNumB (jsGet value "command_count")
                    case neg =>
                      simp only [Bool.not_eq_true] at h7
                      have hkey : firstOffendingKey value = some "command_count" := by
                        simp [firstOffendingKey, hobj, hb, h1, h2, h3, h4, h5, h6, h7]
                      rw [hkey] at hk
                      cases hk
                      rw [readNumber_of_not_finite h7, error_bind]
                    case pos =>
                      obtain ⟨q7, hq7⟩ := isFiniteNumB_exists h7
                      rw [readNumber_of_finite hq7]
                      simp only [ok_bind]
                      by_cases h8 : isFiniteNumB (jsGet value "warning_count")
                      case neg =>
                        simp only [Bool.not_eq_true] at h8
                        have hkey : firstOffendingKey value = some "warning_count" := by
                          simp [firstOffendingKey, hobj, hb, h1, h2, h3, h4, h5, h6, h7, h8]
                        rw [hkey] at hk
                        cases hk
                        rw [readNumber_of_not_finite h8, error_bind]
                      case pos =>
                        obtain ⟨q8, hq8⟩ := isFiniteNumB_exists h8
                        rw [readNumber_of_finite hq8]
                        simp only [ok_bind]
                        by_cases h9 : isStringArrayB (jsGet value "warnings")
                        case neg =>
                          simp only [Bool.not_eq_true] at h9
                          have hkey : firstOffendingKey value = some "warnings" := by
                            simp [firstOffendingKey, hobj, hb, h1, h2, h3, h4, h5, h6, h7,
                              h8, h9]
                          rw [hkey] at hk
                          cases hk
                          rw [readWarnings_of_bad h9]
                          rfl
                        case pos =>
                          have hkey : firstOffendingKey value = none := by
                            simp [firstOffendingKey, hobj, hb, h1, h2, h3, h4, h5, h6, h7,
                              h8, h9]
                          rw [hkey] at hk
                          cases hk

/-- Witness for the amended C5: a non-object result names only the file,
and a result whose `bounds` is a number names `bounds`. -/
theorem claim_C5_witness :
    toLayerMeta (.vStr "oops") "f" = .error "Invalid parse result for \"f\"" ∧
      toLayerMeta (.vObj [("bounds", .vNum true 3)]) "f" =
        .error "Invalid bounds in parse result for \"f\"" :=
  ⟨(claim_C5_amended (.vStr "oops") "f").2.1 (by decide),
    (claim_C5_amended (.vObj [("bounds", .vNum true 3)]) "f").2.2 "bounds" (by decide)⟩

lemma open_clear_range_indices (b : Builder) : b.open_clear_range.indices = b.indices := by
  unfold Builder.open_clear_range
  split <;> rfl

lemma open_clear_range_positions (b : Builder) : b.open_clear_range.positions = b.positions := by
  unfold Builder.open_clear_range
  split <;> rfl

lemma close_clear_range_indices (b : Builder) : b.close_clear_range.indices = b.indices := by
  unfold Builder.close_clear_range
  split <;> rfl

lemma close_clear_range_positions (b : Builder) :
    b.close_clear_range.positions = b.positions := by
  unfold Builder.close_clear_range
  split <;> rfl

lemma push_triangle_positions (b : Builder) (i0 i1 i2 : Nat) :
    (b.push_triangle i0 i1 i2).positions = b.positions := by
  unfold Builder.push_triangle Builder.warn
  split
  · rfl
  · split <;> rfl

lemma indicesOk_push_triangle (b : Builder) (i0 i1 i2 : Nat)
    (h : ∀ i ∈ b.indices, i < b.vertexCount) :
    ∀ i ∈ (b.push_triangle i0 i1 i2).indices, i < (b.push_triangle i0 i1 i2).vertexCount := by
  have hpos := push_triangle_positions b i0 i1 i2
  unfold Builder.vertexCount
  rw [hpos]
  unfold Builder.push_triangle
  split
  · exact h
  · split
    · rename_i hvalid
      intro i hi
      simp only at hi
      rcases List.mem_append.mp hi with hi | hi
      · exact h i hi
      · rcases hvalid with ⟨h0, h1, h2⟩
        unfold Builder.vertexCount at h0 h1 h2
        rcases List.mem_cons.mp hi with rfl | hi
        · exact h0
        rcases List.mem_cons.mp hi with rfl | hi
        · exact h1
        rcases List.mem_cons.mp hi with rfl | hi
        · exact h2
        · cases hi
    · intro i hi
      exact h i hi

lemma indicesOk_push_vertex (b : Builder) (x y : Rat)
    (h : ∀ i ∈ b.indices, i < b.vertexCount) :
    ∀ i ∈ (b.push_vertex x y).1.indices, i < (b.push_vertex x y).1.vertexCount := by
  unfold Builder.push_vertex
  split
  · exact h
  · split
    · intro i hi
      exact h i hi
    · intro i hi
      have hlt := h i hi
      unfold Builder.vertexCount at *
      simp only [List.length_append, List.length_cons, List.length_nil]
      omega

lemma indicesOk_applyOp (b : Builder) (op : BuilderOp)
    (h : ∀ i ∈ b.indices, i < b.vertexCount) :
    ∀ i ∈ (b.applyOp op).indices, i < (b.applyOp op).vertexCount := by
  cases op with
  | pushVertex x y => exact indicesOk_push_vertex b x y h
  | pushTriangle i0 i1 i2 => exact indicesOk_push_triangle b i0 i1 i2 h
  | pushQuad i0 i1 i2 i3 =>
    exact indicesOk_push_triangle _ i0 i2 i3 (indicesOk_push_triangle b i0 i1 i2 h)
  | warnOp msg => exact fun i hi => h i hi
  | openClear =>
    intro i hi
    have e1 : (b.applyOp .openClear).indices = b.indices := open_clear_range_indices b
    have e2 : (b.applyOp .openClear).vertexCount = b.vertexCount := by
      unfold Builder.vertexCount
      rw [show (b.applyOp .openClear).positions = b.positions from open_clear_range_positions b]
    rw [e1] at hi
    rw [e2]
    exact h i hi
  | closeClear =>
    intro i hi
    have e1 : (b.applyOp .closeClear).indices = b.indices := close_clear_range_indices b
    have e2 : (b.applyOp .closeClear).vertexCount = b.vertexCount := by
      unfold Builder.vertexCount
      rw [show (b.applyOp .closeClear).positions = b.positions from close_clear_range_positions b]
    rw [e1] at hi
    rw [e2]
    exact h i hi

lemma runOps_indicesOk (ops : List BuilderOp) :
    ∀ i ∈ (runOps ops).indices, i < (runOps ops).vertexCount := by
  suffices h : ∀ (b : Builder), (∀ i ∈ b.indices, i < b.vertexCount) →
      ∀ i ∈ (ops.foldl Builder.applyOp b).indices,
        i < (ops.foldl Builder.applyOp b).vertexCount by
    exact h Builder.empty (by simp [Builder.empty])
  induction ops with
  | nil => intro b hb; simpa using hb
  | cons op rest ih =>
    intro b hb
    exact ih _ (indicesOk_applyOp b op hb)

/-- C6: for an arbitrary sequence of builder calls — hence for the
record of every parse, since all geometry producers speak to the builder
through these calls — every triangle index in the finished record's
`indices` is below `V = positions.length / 2`, and the recorded vertex
counter equals `V`; equivalently, every index the builder accepts is
below the vertex count at the moment it is pushed. -/
theorem claim_C6 (ops : List BuilderOp) :
    (∀ i ∈ (runOps ops).finish.indices,
      i < (runOps ops).finish.positions.length / 2) ∧
    (runOps ops).finish.vertexCount = (runOps ops).finish.positions.length / 2 := by
  refine ⟨?_, rfl⟩
  intro i hi
  exact runOps_indicesOk ops i hi

/-- Witness for C6: a triangle fan over three pushed vertices. -/
theorem claim_C6_witness :
    (0 : Nat) <
      (runOps [.pushVertex 0 0, .pushVertex 1 0, .pushVertex 1 1,
        .pushTriangle 0 1 2]).finish.positions.length / 2 :=
  (claim_C6 [.pushVertex 0 0, .pushVertex 1 0, .pushVertex 1 1,
    .pushTriangle 0 1 2]).1 0 (by decide)

/-- C7: the entry façade returns an error exactly when the byte slice is
empty or holds a byte `≥ 0x80` outside a comment (InvalidEncoding); on
every other input both entry points return a geometry record — and,
being total Lean functions, they cannot panic. -/
theorem claim_C7 (bytes : List Nat) :
    ((Core.parse_gerber bytes).isOk = (!bytes.isEmpty && !hasInvalidEncoding bytes)) ∧
      ((Core.parse_excellon bytes).isOk = (!bytes.isEmpty && !hasInvalidEncoding bytes)) ∧
      (bytes.isEmpty = true →
        Core.parse_gerber bytes = .error ParseError.emptyInput ∧
          Core.parse_excellon bytes = .error ParseError.emptyInput) ∧
      (bytes.isEmpty = false → hasInvalidEncoding bytes = true →
        Core.parse_gerber bytes = .error ParseError.invalidEncoding ∧
          Core.parse_excellon bytes = .error ParseError.invalidEncoding) := by
  refine ⟨?_, ?_, ?_, ?_⟩
  · by_cases h1 : bytes.isEmpty <;> by_cases h2 : hasInvalidEncoding bytes <;>
      simp [Core.parse_gerber, h1, h2, isOk_error, isOk_ok]
  · by_cases h1 : bytes.isEmpty <;> by_cases h2 : hasInvalidEncoding bytes <;>
      simp [Core.parse_excellon, h1, h2, isOk_error, isOk_ok]
  · intro h1
    constructor <;> simp [Core.parse_gerber, Core.parse_excellon, h1]
  · intro h1 h2
    constructor <;> simp [Core.parse_gerber, Core.parse_excellon, h1, h2]

/-- Witness for C7: the empty slice errors, a high byte errors, and a
well-formed minimal file parses. -/
theorem claim_C7_witness :
    Core.parse_gerber [] = .error ParseError.emptyInput ∧
      Core.parse_gerber [200] = .error ParseError.invalidEncoding :=
  ⟨((claim_C7 []).2.2.1 (by decide)).1, ((claim_C7 [200]).2.2.2 (by decide) (by decide)).1⟩

lemma getBaseScale_pos (bb : BoundingBox) (w h : Rat) (hbw : bb.minX < bb.maxX)
    (hbh : bb.minY < bb.maxY) (hw : 0 < w) (hh : 0 < h) :
    0 < getBaseScale (some bb) w h := by
  have h1 : ¬(w ≤ 0 ∨ h ≤ 0) := by push_neg; exact ⟨hw, hh⟩
  have hbw2 : (0 : Rat) < bb.maxX - bb.minX := sub_pos.mpr hbw
  have hbh2 : (0 : Rat) < bb.maxY - bb.minY := sub_pos.mpr hbh
  have h2 : ¬(bb.maxX - bb.minX ≤ 0 ∨ bb.maxY - bb.minY ≤ 0) := by
    push_neg
    exact ⟨hbw2, hbh2⟩
  unfold getBaseScale
  dsimp only
  rw [if_neg h1, if_neg h2]
  have hpad : (0 : Rat) < 1 + 2 * fitPadding := by norm_num [fitPadding]
  exact lt_min (div_pos hw (mul_pos hbw2 hpad)) (div_pos hh (mul_pos hbh2 hpad))

lemma screenToBoard_of_pos (p : Point) (vs : ViewState) (w h : Rat) (bb : BoundingBox)
    (hs : 0 < getBaseScale (some bb) w h * vs.zoom) :
    screenToBoard p vs w h (some bb) =
      ⟨(p.x - w / 2) / (getBaseScale (some bb) w h * vs.zoom) + vs.centerX,
        (h / 2 - p.y) / (getBaseScale (some bb) w h * vs.zoom) + vs.centerY⟩ := by
  unfold screenToBoard
  dsimp only
  rw [if_neg (not_le.mpr hs)]

lemma boardToScreen_unfold (q : Point) (vs : ViewState) (w h : Rat) (bb : BoundingBox) :
    boardToScreen q vs w h (some bb) =
      ⟨(q.x - vs.centerX) * (getBaseScale (some bb) w h * vs.zoom) + w / 2,
        h / 2 - (q.y - vs.centerY) * (getBaseScale (some bb) w h * vs.zoom)⟩ := by
  unfold boardToScreen
  dsimp only

/-- C8 fails as stated: at zoom 0 (a view state the claim quantifies
over), `screenToBoard` hits its non-positive-scale guard and reports the
origin as the cursor's board point, so the zoom recentres on a garbage
point and the board point under the cursor is not preserved. -/
theorem claim_C8_counterexample :
    screenToBoard ⟨0, 0⟩ (applyZoom ⟨0, 0, 0⟩ ⟨0, 0⟩ 1 (some ⟨0, 0, 1, 1⟩) 100 100)
        100 100 (some ⟨0, 0, 1, 1⟩) ≠
      screenToBoard ⟨0, 0⟩ ⟨0, 0, 0⟩ 100 100 (some ⟨0, 0, 1, 1⟩) := by
  norm_num [applyZoom, screenToBoard, getBaseScale, zoomFactor, minZoom, maxZoom,
    fitPadding, Point.mk.injEq, zpow_one]

/-- C8 (amended): additionally assuming the current zoom is positive
(the only view states the viewer produces), `applyZoom` yields the
clamped multiplied zoom, returns the input state unchanged when the
clamp lands on the current zoom, and otherwise preserves the board-space
point under the cursor exactly. -/
theorem claim_C8_amended (vs : ViewState) (p : Point) (d : Int) (bb : BoundingBox)
    (w h : Rat) (hbw : bb.minX < bb.maxX) (hbh : bb.minY < bb.maxY)
    (hw : 0 < w) (hh : 0 < h) (hz : 0 < vs.zoom) :
    (applyZoom vs p d (some bb) w h).zoom =
        min maxZoom (max minZoom (vs.zoom * zoomFactor ^ d)) ∧
      (min maxZoom (max minZoom (vs.zoom * zoomFactor ^ d)) = vs.zoom →
        applyZoom vs p d (some bb) w h = vs) ∧
      screenToBoard p (applyZoom vs p d (some bb) w h) w h (some bb) =
        screenToBoard p vs w h (some bb) := by
  have hbase : 0 < getBaseScale (some bb) w h := getBaseScale_pos bb w h hbw hbh hw hh
  have hz2 : 0 < min maxZoom (max minZoom (vs.zoom * zoomFactor ^ d)) := by
    apply lt_min
    · norm_num [maxZoom]
    · exact lt_of_lt_of_le (by norm_num [minZoom]) (le_max_left _ _)
  by_cases heq : min maxZoom (max minZoom (vs.zoom * zoomFactor ^ d)) = vs.zoom
  · have happ : applyZoom vs p d (some bb) w h = vs := by
      unfold applyZoom
      dsimp only
      rw [if_pos heq]
    exact ⟨by rw [happ, heq], fun _ => happ, by rw [happ]⟩
  · have happ : applyZoom vs p d (some bb) w h =
        { centerX := (screenToBoard p vs w h (some bb)).x -
            ((screenToBoard p vs w h (some bb)).x - vs.centerX) *
              (vs.zoom / min maxZoom (max minZoom (vs.zoom * zoomFactor ^ d))),
          centerY := (screenToBoard p vs w h (some bb)).y -
            ((screenToBoard p vs w h (some bb)).y - vs.centerY) *
              (vs.zoom / min maxZoom (max minZoom (vs.zoom * zoomFactor ^ d))),
          zoom := min maxZoom (max minZoom (vs.zoom * zoomFactor ^ d)) } := by
      unfold applyZoom
      dsimp only
      rw [if_neg heq]
    have hsold : 0 < getBaseScale (some bb) w h * vs.zoom := mul_pos hbase hz
    refine ⟨by rw [happ], fun hcon => absurd hcon heq, ?_⟩
    rw [happ, screenToBoard_of_pos p vs w h bb hsold]
    dsimp only
    rw [screenToBoard_of_pos]
    · have hsne : getBaseScale (some bb) w h ≠ 0 := ne_of_gt hbase
      have hzne : vs.zoom ≠ 0 := ne_of_gt hz
      have hz2ne : min maxZoom (max minZoom (vs.zoom * zoomFactor ^ d)) ≠ 0 := ne_of_gt hz2
      simp only [Point.mk.injEq]
      constructor <;> (field_simp; ring)
    · exact mul_pos hbase hz2

/-- Witness for the amended C8: a one-step wheel zoom from the fitted
view preserves the point under the cursor. -/
theorem claim_C8_witness :
    screenToBoard ⟨400, 300⟩
        (applyZoom ⟨50, 40, 1⟩ ⟨400, 300⟩ 1 (some ⟨0, 0, 100, 80⟩) 800 600)
        800 600 (some ⟨0, 0, 100, 80⟩) =
      screenToBoard ⟨400, 300⟩ ⟨50, 40, 1⟩ 800 600 (some ⟨0, 0, 100, 80⟩) :=
  (claim_C8_amended ⟨50, 40, 1⟩ ⟨400, 300⟩ 1 ⟨0, 0, 100, 80⟩ 800 600 (by norm_num)
    (by norm_num) (by norm_num) (by norm_num) (by norm_num)).2.2

/-- C9: with a non-degenerate bounding box, positive canvas dimensions
and positive zoom, `screenToBoard` and `boardToScreen` are mutually
inverse in exact arithmetic. -/
theorem claim_C9 (vs : ViewState) (bb : BoundingBox) (w h : Rat)
    (hbw : bb.minX < bb.maxX) (hbh : bb.minY < bb.maxY) (hw : 0 < w) (hh : 0 < h)
    (hz : 0 < vs.zoom) :
    (∀ p : Point, boardToScreen (screenToBoard p vs w h (some bb)) vs w h (some bb) = p) ∧
      (∀ q : Point, screenToBoard (boardToScreen q vs w h (some bb)) vs w h (some bb) = q) := by
  have hs : 0 < getBaseScale (some bb) w h * vs.zoom :=
    mul_pos (getBaseScale_pos bb w h hbw hbh hw hh) hz
  have hne : getBaseScale (some bb) w h * vs.zoom ≠ 0 := ne_of_gt hs
  constructor
  · intro p
    obtain ⟨px, py⟩ := p
    rw [screenToBoard_of_pos ⟨px, py⟩ vs w h bb hs, boardToScreen_unfold]
    simp only [Point.mk.injEq]
    constructor <;> (field_simp; ring)
  · intro q
    obtain ⟨qx, qy⟩ := q
    rw [boardToScreen_unfold ⟨qx, qy⟩ vs w h bb, screenToBoard_of_pos _ vs w h bb hs]
    simp only [Point.mk.injEq]
    constructor <;> (field_simp; try ring)

/-- Witness for C9 at the fitted view of a 100×80 board on an 800×600
canvas. -/
theorem claim_C9_witness :
    boardToScreen (screenToBoard ⟨400, 300⟩ ⟨50, 40, 1⟩ 800 600 (some ⟨0, 0, 100, 80⟩))
        ⟨50, 40, 1⟩ 800 600 (some ⟨0, 0, 100, 80⟩) = ⟨400, 300⟩ :=
  (claim_C9 ⟨50, 40, 1⟩ ⟨0, 0, 100, 80⟩ 800 600 (by norm_num) (by norm_num) (by norm_num)
    (by norm_num) (by norm_num)).1 ⟨400, 300⟩

/-- C10: `extractAndIdentify` skips every entry whose base name is empty
or starts with a dot (the entry contributes neither results nor size);
it rejects with `ZipTooLarge` as soon as the running uncompressed total
exceeds the limit, whose default is 104,857,600 bytes, regardless of the
remaining entries; and a run that ends with no classified file rejects
with `NoGerberFiles` instead of returning an empty list. -/
theorem claim_C10 :
    MAX_UNCOMPRESSED_SIZE = 104857600 ∧
      (∀ (maxB : Nat) (e : ZipEntry) rest total acc,
        (decide (extractBaseName e.name = "") ||
          strStartsWith (extractBaseName e.name) ".") = true →
        processEntries maxB (e :: rest) total acc = processEntries maxB rest total acc) ∧
      (∀ (maxB : Nat) (e : ZipEntry) rest total acc,
        (decide (extractBaseName e.name = "") ||
          strStartsWith (extractBaseName e.name) ".") = false →
        e.extractFailure = none →
        total + e.content.length > maxB →
        processEntries maxB (e :: rest) total acc =
          .error ⟨ErrorCode.ZipTooLarge,
            "ZIP exceeds " ++ toString (natRoundDiv maxB (1024 * 1024)) ++
              " MB uncompressed size limit"⟩) ∧
      (∀ entries maxB res, extractAndIdentify entries maxB = .ok res → res ≠ []) ∧
      (∀ entries maxB, (entries.filter (fun e => !e.dir)).isEmpty = false →
        processEntries maxB (entries.filter (fun e => !e.dir)) 0 [] = .ok [] →
        extractAndIdentify entries maxB =
          .error ⟨ErrorCode.NoGerberFiles, "ZIP contains no Gerber or Excellon files"⟩) := by
  refine ⟨rfl, ?_, ?_, ?_, ?_⟩
  · intro maxB e rest total acc h
    simp only [processEntries, h, if_true]
  · intro maxB e rest total acc h hfail hsize
    simp only [processEntries, h, Bool.false_eq_true, if_false, hfail]
    rw [if_pos hsize]
  · intro entries maxB res h
    simp only [extractAndIdentify] at h
    split at h
    · cases h
    · split at h
      · cases h
      · split at h
        · cases h
        · rcases h with ⟨rfl⟩
          rename_i hne
          simpa using hne
  · intro entries maxB hne hok
    simp only [extractAndIdentify, hne, Bool.false_eq_true, if_false, hok]
    rfl

/-- Witness for C10: a dot-file entry is skipped, a 3-byte entry
overflows a 2-byte limit, a classified archive yields a non-empty list,
and an unclassifiable archive rejects with `NoGerberFiles`. -/
theorem claim_C10_witness :
    processEntries 100 [⟨".hidden", false, [], none⟩] 0 [] = processEntries 100 [] 0 [] ∧
      processEntries 2 [⟨"a.gtl", false, [0, 0, 0], none⟩] 0 [] =
        .error ⟨ErrorCode.ZipTooLarge,
          "ZIP exceeds " ++ toString (natRoundDiv 2 (1024 * 1024)) ++
            " MB uncompressed size limit"⟩ ∧
      ([⟨"board.GTL", LayerType.TopCopper, FileType.gerber, bytesOfAscii "%FSLAX36Y36*%"⟩] :
        List IdentifiedFile) ≠ [] ∧
      extractAndIdentify [⟨"notes.txt", false, bytesOfAscii "hello", none⟩]
          MAX_UNCOMPRESSED_SIZE =
        .error ⟨ErrorCode.NoGerberFiles, "ZIP contains no Gerber or Excellon files"⟩ :=
  ⟨claim_C10.2.1 100 ⟨".hidden", false, [], none⟩ [] 0 [] (by decide),
    claim_C10.2.2.1 2 ⟨"a.gtl", false, [0, 0, 0], none⟩ [] 0 [] (by decide) rfl (by decide),
    claim_C10.2.2.2.1 [⟨"board.GTL", false, bytesOfAscii "%FSLAX36Y36*%", none⟩]
      MAX_UNCOMPRESSED_SIZE
      [⟨"board.GTL", LayerType.TopCopper, FileType.gerber, bytesOfAscii "%FSLAX36Y36*%"⟩]
      (by decide),
    claim_C10.2.2.2.2 [⟨"notes.txt", false, bytesOfAscii "hello", none⟩]
      MAX_UNCOMPRESSED_SIZE (by decide) (by decide)⟩

end GerberView
